import Mathlib

/-!
Shallow embedding of the containerized payment aggregator: the Redis-backed
idempotency store (cache/redis.go), the mock payment providers
(providers/mtn.go, providers/airtel.go), and the Phase II request handler
with per-provider circuit breakers (main.go, Phase II version).
The gobreaker library is an external dependency of the repository; its state
machine is modelled from the spec where noted, with the repository's own
ReadyToTrip / IsSuccessful callbacks translated from the source.
-/

namespace PaymentAggregator

/-- Transaction status value written at admission (cache/redis.go). -/
def StatusInProgress : String := "IN_PROGRESS"

/-- Transaction status value written at completion (cache/redis.go). -/
def StatusCompleted : String := "COMPLETED"

/-- TTL of the IN_PROGRESS lease, in seconds (cache/redis.go: 10 * time.Second). -/
def InProgressExpirySeconds : Nat := 10

/-- TTL of the COMPLETED record, in seconds (cache/redis.go: 24 * time.Hour). -/
def CompletedExpirySeconds : Nat := 24 * 60 * 60

/-- Contents of the key-value store: entries of key, value and TTL in seconds.
Newer entries shadow older ones. -/
abbrev Store := List (String × String × Nat)

/-- Lookup of a key in the store model (first, i.e. newest, matching entry). -/
def storeFind : Store → String → Option (String × Nat)
  | [], _ => none
  | (k, v, t) :: rest, key => if k = key then some (v, t) else storeFind rest key

/-- Redis SET NX on the store model: writes the key only when it is absent. -/
def storeSetNX (s : Store) (key value : String) (ttl : Nat) : Bool × Store :=
  match storeFind s key with
  | some _ => (false, s)
  | none => (true, (key, value, ttl) :: s)

/-- Redis SET on the store model: unconditionally overwrites the key. -/
def storeSet (s : Store) (key value : String) (ttl : Nat) : Store :=
  (key, value, ttl) :: s

/-- Result of a Redis GET round trip: a value, the redis.Nil miss, or an error. -/
inductive GetOutcome where
  | okVal (v : String)
  | nilKey
  | ioErr (e : String)
deriving DecidableEq, Repr

/-- Result of a Redis SET NX round trip: the did-set flag, or an error. -/
inductive SetNXOutcome where
  | setRes (didSet : Bool)
  | ioErr (e : String)
deriving DecidableEq, Repr

/-- Behaviour of the backing store as observed by one request: how each of the
three Redis primitives used by cache/redis.go responds. -/
structure StoreBehavior where
  get : Store → String → GetOutcome
  setNX : Store → String → String → Nat → SetNXOutcome × Store
  set : Store → String → String → Nat → Option String × Store

/-- A reachable store: every primitive succeeds and acts on the store contents. -/
def reliableStore : StoreBehavior where
  get s k :=
    match storeFind s k with
    | some (v, _) => .okVal v
    | none => .nilKey
  setNX s k v ttl :=
    match storeSetNX s k v ttl with
    | (didSet, s') => (.setRes didSet, s')
  set s k v ttl := (none, storeSet s k v ttl)

/-- An unreachable store: every primitive fails with the given error message. -/
def unreachableStore (msg : String) : StoreBehavior where
  get _ _ := .ioErr msg
  setNX s _ _ _ := (.ioErr msg, s)
  set s _ _ _ := (some msg, s)

/-- Observable side effects of one request. -/
inductive Effect where
  | setNXCall (key value : String) (didSet : Bool)
  | setCall (key value : String) (ttl : Nat)
  | providerCall (name : String)
deriving DecidableEq, Repr

/-- Key layout of cache/redis.go: fmt.Sprintf with the txn prefix. -/
def txnKey (transactionID : String) : String := "txn:" ++ transactionID

/-- Result of CheckOrSetInProgress: the Go (bool, error) pair, the store after the
call, and the effects performed. -/
structure AdmitOut where
  isDuplicate : Bool
  err : Option String
  store : Store
  effects : List Effect
deriving DecidableEq, Repr

/-- Second half of CheckOrSetInProgress (cache/redis.go): the SET NX attempt of
IN_PROGRESS under the 10 s lease TTL, with its three outcomes. -/
def setInProgressStep (sb : StoreBehavior) (s : Store) (key : String) : AdmitOut :=
  match sb.setNX s key StatusInProgress InProgressExpirySeconds with
  | (.ioErr e, s') => ⟨false, some ("redis SETNX error: " ++ e), s', []⟩
  | (.setRes false, s') =>
      ⟨true, some "transaction already in progress", s',
        [.setNXCall key StatusInProgress false]⟩
  | (.setRes true, s') => ⟨false, none, s', [.setNXCall key StatusInProgress true]⟩

/-- CheckOrSetInProgress (cache/redis.go): GET first; a COMPLETED value returns the
duplicate flag without touching the store; otherwise SET NX of IN_PROGRESS. -/
def CheckOrSetInProgress (sb : StoreBehavior) (s : Store) (transactionID : String) :
    AdmitOut :=
  match sb.get s (txnKey transactionID) with
  | .okVal v =>
      if v = StatusCompleted then ⟨true, none, s, []⟩
      else setInProgressStep sb s (txnKey transactionID)
  | _ => setInProgressStep sb s (txnKey transactionID)

/-- Result of SetCompleted: the Go error, the store after, and the effect. -/
structure CompleteOut where
  err : Option String
  store : Store
  effects : List Effect
deriving DecidableEq, Repr

/-- SetCompleted (cache/redis.go): unconditional SET of COMPLETED under the 24 h TTL. -/
def SetCompleted (sb : StoreBehavior) (s : Store) (transactionID : String) :
    CompleteOut :=
  match sb.set s (txnKey transactionID) StatusCompleted CompletedExpirySeconds with
  | (e, s') => ⟨e, s', [.setCall (txnKey transactionID) StatusCompleted CompletedExpirySeconds]⟩

/-- PaymentRequest (providers/provider.go).  The Go Amount is a float64; the
handler never computes with it, so an exact rational carries it here. -/
structure PaymentRequest where
  TransactionID : String
  Amount : ℚ
  Currency : String
  ProviderKey : String
deriving DecidableEq, Repr

/-- PaymentResponse (providers/provider.go). -/
structure PaymentResponse where
  Status : String
  ReferenceID : String
  ProviderName : String
  IsIdempotent : Bool
  Message : String
deriving DecidableEq, Repr

/-- A provider as the handler sees it: its Name() value.  The behaviour of one
ProcessPayment call is passed to the handler as a ProviderResult. -/
structure Provider where
  name : String
deriving DecidableEq, Repr

/-- MTNProvider.Name() (providers/mtn.go). -/
def MTNProvider : Provider := ⟨"MTN_MOMO"⟩

/-- AirtelProvider.Name() (providers/airtel.go). -/
def AirtelProvider : Provider := ⟨"AIRTEL_MONEY"⟩

/-- What one ProcessPayment call returned: either (nil, ctx.Err()) on context
cancellation, or a response pointer together with the Go error value. -/
inductive ProviderResult where
  | ctxDone (errMsg : String)
  | response (res : PaymentResponse) (err : Option String)
deriving DecidableEq, Repr

/-- The error component of a ProcessPayment return value. -/
def callError : ProviderResult → Option String
  | .ctxDone e => some e
  | .response _ e => e

/-- The FAILED response built by providers/mtn.go (simulated 500 branch). -/
def mtnFailedResponse : PaymentResponse :=
  { Status := "FAILED", ReferenceID := "N/A", ProviderName := "MTN_MOMO",
    IsIdempotent := false, Message := "Provider internal server error (simulated 500)" }

/-- The SUCCESS response built by providers/mtn.go, with the time-derived
reference id abstracted as a parameter. -/
def mtnSuccessResponse (ref : String) : PaymentResponse :=
  { Status := "SUCCESS", ReferenceID := ref, ProviderName := "MTN_MOMO",
    IsIdempotent := false, Message := "Transaction processed successfully." }

/-- The possible return values of MTNProvider.ProcessPayment (providers/mtn.go):
context cancellation, the FAILED response with a nil error, or a SUCCESS
response with a nil error. -/
def mtnPossibleOutcome (o : ProviderResult) : Prop :=
  (∃ e, o = .ctxDone e) ∨ o = .response mtnFailedResponse none ∨
    ∃ ref, o = .response (mtnSuccessResponse ref) none

/-- Breaker states (gobreaker). -/
inductive BreakerState where
  | closed
  | opened
  | halfOpen
deriving DecidableEq, Repr

/-- gobreaker.Counts as consumed by the repository's ReadyToTrip callback. -/
structure Counts where
  requests : Nat
  totalSuccesses : Nat
  totalFailures : Nat
deriving DecidableEq, Repr

/-- Fresh window. -/
def Counts.zero : Counts := ⟨0, 0, 0⟩

/-- Window after one successful call (request counted, success counted). -/
def Counts.onSuccess (c : Counts) : Counts :=
  ⟨c.requests + 1, c.totalSuccesses + 1, c.totalFailures⟩

/-- Window after one failed call (request counted, failure counted). -/
def Counts.onFailure (c : Counts) : Counts :=
  ⟨c.requests + 1, c.totalSuccesses, c.totalFailures + 1⟩

/-- ReadyToTrip callback (main.go Phase II): fewer than 3 requests never trips;
otherwise trips when TotalFailures / Requests reaches 0.6.  The source compares
float64 values; for every count representable in a uint32 window the rounded
float64 quotient compares against 0.6 exactly as the rational quotient does, so
the embedding uses the exact rational quotient mkRat. -/
def ReadyToTrip (counts : Counts) : Bool :=
  if counts.requests < 3 then false
  else decide (mkRat (counts.totalFailures : Int) counts.requests ≥ mkRat 6 10)

/-- IsSuccessful callback (main.go Phase II): a call succeeded exactly when the
returned error is nil; the response value is not consulted. -/
def IsSuccessful (err : Option String) : Bool := err.isNone

/-- The gobreaker.Settings fields set by newAggregator (main.go Phase II). -/
structure Settings where
  Name : String
  MaxRequests : Nat
  TimeoutSeconds : Nat
  IntervalSeconds : Nat
deriving DecidableEq, Repr

/-- Settings literal of newAggregator: MaxRequests 1, Timeout 30 s, Interval 5 s. -/
def mtnBreakerSettings : Settings := ⟨"MTN-Breaker", 1, 30, 5⟩

/-- A circuit breaker at one instant: its state and current window. -/
structure Breaker where
  state : BreakerState
  counts : Counts
deriving DecidableEq, Repr

/-- A freshly constructed breaker: CLOSED with an empty window. -/
def initialBreaker : Breaker := ⟨.closed, Counts.zero⟩

/-- Window update selected by the call outcome. -/
def countsAfter (c : Counts) (success : Bool) : Counts :=
  if success then c.onSuccess else c.onFailure

/-- Modelled from the spec (the gobreaker library is a dependency, not repository
source): outcome recording after an admitted call.  In CLOSED the outcome is
added to the window and the breaker trips to OPEN exactly when ReadyToTrip holds
on the updated window; in HALF_OPEN a successful trial closes the breaker and
resets the window, a failed trial reopens it.  The spec resets the window on
every transition into or out of OPEN; here the reset is deferred to the
transition out of OPEN, which is observationally equivalent because no admission
decision reads the window while the breaker is OPEN. -/
def afterCall (b : Breaker) (success : Bool) : Breaker :=
  match b.state with
  | .closed =>
      let c := countsAfter b.counts success
      ⟨if ReadyToTrip c then .opened else .closed, c⟩
  | .halfOpen => if success then ⟨.closed, Counts.zero⟩ else ⟨.opened, b.counts⟩
  | .opened => b

/-- Run a sequence of call outcomes through the breaker. -/
def runCalls (b : Breaker) (outcomes : List Bool) : Breaker :=
  outcomes.foldl afterCall b

/-- What breaker.Execute handed back to the handler: the sentinel open-state
error, some other non-nil error, or a successfully type-asserted response. -/
inductive ExecOutcome where
  | openState
  | errResult (msg : String)
  | okResult (res : PaymentResponse)
deriving DecidableEq, Repr

/-- Modelled from the spec (gobreaker dependency): Execute refuses immediately
with the open-state error while OPEN, without invoking the wrapped function;
otherwise it runs the call, records its outcome through the repository's
IsSuccessful callback, and returns the call's own result and error.  The third
component reports whether the wrapped function was invoked. -/
def Execute (b : Breaker) (call : ProviderResult) : ExecOutcome × Breaker × Bool :=
  match b.state with
  | .opened => (.openState, b, false)
  | _ =>
      let b' := afterCall b (IsSuccessful (callError call))
      match call with
      | .ctxDone e => (.errResult e, b', true)
      | .response r e =>
          match e with
          | some m => (.errResult m, b', true)
          | none => (.okResult r, b', true)

/-- Lookup in a string-keyed association list (a Go map observed at fixed keys). -/
def slookup {β : Type} : List (String × β) → String → Option β
  | [], _ => none
  | (k, v) :: rest, key => if k = key then some v else slookup rest key

/-- Replacement of a value in a string-keyed association list. -/
def supdate {β : Type} : List (String × β) → String → β → List (String × β)
  | [], _, _ => []
  | (k, v) :: rest, key, nv =>
      if k = key then (k, nv) :: rest else (k, v) :: supdate rest key nv

/-- Aggregator (main.go Phase II): the provider and breaker registries.  The
store contents travel separately as explicit state. -/
structure Aggregator where
  Providers : List (String × Provider)
  Breakers : List (String × Breaker)

/-- The registries built by newAggregator, generalized over the MTN breaker's
current state so that theorems can speak about later instants of the same
process. -/
def mkAggregator (b : Breaker) : Aggregator :=
  ⟨[("MTN", MTNProvider)], [("MTN", b)]⟩

/-- newAggregator (main.go Phase II): registers the MTN provider and its freshly
constructed breaker under the same key. -/
def newAggregator : Aggregator := mkAggregator initialBreaker

/-- The provider-selection key used by PayHandler (main.go Phase II:
providerName is the constant MTN; the request's ProviderKey is not consulted). -/
def routedProviderName : String := "MTN"

/-- The per-call deadline set by PayHandler, in seconds (1 * time.Second). -/
def providerCallTimeoutSeconds : Nat := 1

/-- What PayHandler wrote back: status code and body, abstracted per branch. -/
inductive HandlerResult where
  | methodNotAllowed
  | badRequest
  | tooEarly
  | conflict
  | providerNotFound (name : String)
  | circuitOpen (message : String)
  | processingError (message : String)
  | okPayment (res : PaymentResponse)
  | nilBreakerCrash
deriving DecidableEq, Repr

/-- Result of one PayHandler run: the response, the store and breaker registry
afterwards, and the side effects in order. -/
structure HandlerOut where
  result : HandlerResult
  store : Store
  breakers : List (String × Breaker)
  effects : List Effect
deriving Repr

/-- PayHandler (main.go Phase II), one request.  The body is the decoded
PaymentRequest or none when decoding failed; call is what ProcessPayment would
return if invoked.  The nilBreakerCrash constructor stands for the branch where
the breaker registry misses the provider key: the Go code logs a warning and
then calls Execute on a nil breaker, which panics. -/
def PayHandler (a : Aggregator) (sb : StoreBehavior) (method : String)
    (body : Option PaymentRequest) (store : Store) (call : ProviderResult) :
    HandlerOut :=
  if method ≠ "POST" then ⟨.methodNotAllowed, store, a.Breakers, []⟩
  else
    match body with
    | none => ⟨.badRequest, store, a.Breakers, []⟩
    | some req =>
        let gate := CheckOrSetInProgress sb store req.TransactionID
        if gate.err = some "transaction already in progress" then
          ⟨.tooEarly, gate.store, a.Breakers, gate.effects⟩
        else if gate.isDuplicate then
          ⟨.conflict, gate.store, a.Breakers, gate.effects⟩
        else
          match slookup a.Providers routedProviderName with
          | none => ⟨.providerNotFound routedProviderName, gate.store, a.Breakers,
              gate.effects⟩
          | some provider =>
              match slookup a.Breakers routedProviderName with
              | none => ⟨.nilBreakerCrash, gate.store, a.Breakers, gate.effects⟩
              | some breaker =>
                  match Execute breaker call with
                  | (execOut, breaker', called) =>
                      let breakers' := supdate a.Breakers routedProviderName breaker'
                      let effs := gate.effects ++
                        (if called then [Effect.providerCall provider.name] else [])
                      match execOut with
                      | .openState =>
                          ⟨.circuitOpen ("Provider " ++ provider.name ++
                            " is currently experiencing high failure rates and has been temporarily taken offline."),
                            gate.store, breakers', effs⟩
                      | .errResult m =>
                          ⟨.processingError ("Processing error: " ++ m),
                            gate.store, breakers', effs⟩
                      | .okResult res =>
                          if res.Status = "SUCCESS" then
                            let comp := SetCompleted sb gate.store req.TransactionID
                            ⟨.okPayment { res with IsIdempotent := true },
                              comp.store, breakers', effs ++ comp.effects⟩
                          else
                            ⟨.okPayment res, gate.store, breakers', effs⟩

/-- Classification of one admit call, per the idempotency gate contract. -/
inductive AdmitClass where
  | newTxn
  | dupInProgress
  | dupCompleted
deriving DecidableEq, Repr

/-- Position of one in-flight CheckOrSetInProgress call between its two atomic
store round trips (cache/redis.go): before the GET, between the GET and the
SET NX, or finished with a classification. -/
inductive TPhase where
  | beforeGet
  | beforeSetNX
  | finished (r : AdmitClass)
deriving DecidableEq, Repr

/-- One atomic step of an in-flight CheckOrSetInProgress call against the shared
store: the GET (finishing with DUPLICATE_COMPLETED on a COMPLETED value,
proceeding otherwise) or the SET NX (NEW when it sets, DUPLICATE_IN_PROGRESS
when the key already exists). -/
def threadStep (s : Store) (key : String) : TPhase → Store × TPhase
  | .beforeGet =>
      match storeFind s key with
      | some (v, _) =>
          if v = StatusCompleted then (s, .finished .dupCompleted)
          else (s, .beforeSetNX)
      | none => (s, .beforeSetNX)
  | .beforeSetNX =>
      match storeSetNX s key StatusInProgress InProgressExpirySeconds with
      | (true, s') => (s', .finished .newTxn)
      | (false, s') => (s', .finished .dupInProgress)
  | .finished r => (s, .finished r)

/-- Two concurrent CheckOrSetInProgress calls for the same transaction key over
one shared store. -/
structure Sys where
  store : Store
  key : String
  t0 : TPhase
  t1 : TPhase

/-- The scheduler lets one of the two calls perform its next atomic store
round trip; a finished call is left unchanged. -/
def sysStep (sys : Sys) (first : Bool) : Sys :=
  match first with
  | true =>
      match threadStep sys.store sys.key sys.t0 with
      | (s', p') => ⟨s', sys.key, p', sys.t1⟩
  | false =>
      match threadStep sys.store sys.key sys.t1 with
      | (s', p') => ⟨s', sys.key, sys.t0, p'⟩

/-- Run an arbitrary interleaving of the two calls. -/
def runSched (sys : Sys) : List Bool → Sys
  | [] => sys
  | b :: rest => runSched (sysStep sys b) rest

/-- A call that has not yet reached a classification. -/
def Unfinished (p : TPhase) : Prop := p = .beforeGet ∨ p = .beforeSetNX

/-- Invariant for the race of two admits: a call that came back NEW implies the
key is present, and the two calls never both come back NEW. -/
def NoDoubleNew (sys : Sys) : Prop :=
  (sys.t0 = .finished .newTxn → (storeFind sys.store sys.key).isSome = true) ∧
  (sys.t1 = .finished .newTxn → (storeFind sys.store sys.key).isSome = true) ∧
  ¬(sys.t0 = .finished .newTxn ∧ sys.t1 = .finished .newTxn)

/-- Invariant for the race of two admits on a key that was initially absent:
while the key is absent no call has finished; once present the key holds
IN_PROGRESS and was written by the one call that came back NEW; no call ever
sees DUPLICATE_COMPLETED. -/
def FreshInv (sys : Sys) : Prop :=
  (storeFind sys.store sys.key = none → Unfinished sys.t0 ∧ Unfinished sys.t1) ∧
  (∀ v t, storeFind sys.store sys.key = some (v, t) →
    v = StatusInProgress ∧
      (sys.t0 = .finished .newTxn ∨ sys.t1 = .finished .newTxn)) ∧
  sys.t0 ≠ .finished .dupCompleted ∧ sys.t1 ≠ .finished .dupCompleted

/-- Admission through a reachable store on a fresh transaction id: the SET NX
succeeds, the lease is written, the call is classified NEW. -/
theorem checkOrSet_fresh (s : Store) (tid : String)
    (h : storeFind s (txnKey tid) = none) :
    CheckOrSetInProgress reliableStore s tid =
      ⟨false, none, (txnKey tid, StatusInProgress, InProgressExpirySeconds) :: s,
        [.setNXCall (txnKey tid) StatusInProgress true]⟩ := by
  simp [CheckOrSetInProgress, reliableStore, setInProgressStep, storeSetNX, h]

/-- Admission through a reachable store on a COMPLETED id: classified duplicate
with a nil error and the store untouched. -/
theorem checkOrSet_completed (s : Store) (tid : String) (t : Nat)
    (h : storeFind s (txnKey tid) = some (StatusCompleted, t)) :
    CheckOrSetInProgress reliableStore s tid = ⟨true, none, s, []⟩ := by
  simp [CheckOrSetInProgress, reliableStore, h]

/-- Admission through a reachable store on an id whose key exists with a value
other than COMPLETED: the SET NX fails and the in-progress error is returned,
with the store untouched. -/
theorem checkOrSet_present (s : Store) (tid : String) (v : String) (t : Nat)
    (h : storeFind s (txnKey tid) = some (v, t)) (hv : v ≠ StatusCompleted) :
    CheckOrSetInProgress reliableStore s tid =
      ⟨true, some "transaction already in progress", s,
        [.setNXCall (txnKey tid) StatusInProgress false]⟩ := by
  simp [CheckOrSetInProgress, reliableStore, setInProgressStep, storeSetNX, h, hv]

/-- Completion through a reachable store: the COMPLETED record is written under
the 24 h TTL. -/
theorem setCompleted_reliable (s : Store) (tid : String) :
    SetCompleted reliableStore s tid =
      ⟨none, (txnKey tid, StatusCompleted, CompletedExpirySeconds) :: s,
        [.setCall (txnKey tid) StatusCompleted CompletedExpirySeconds]⟩ := by
  simp [SetCompleted, reliableStore, storeSet]

/-- ReadyToTrip holds exactly when the window has at least the minimum sample of
3 requests and the failure ratio is at least 0.6. -/
theorem readyToTrip_true_iff (c : Counts) :
    ReadyToTrip c = true ↔
      3 ≤ c.requests ∧ (c.totalFailures : ℚ) / (c.requests : ℚ) ≥ 0.6 := by
  unfold ReadyToTrip
  by_cases h : c.requests < 3
  · rw [if_pos h]
    simp only [Bool.false_eq_true, false_iff]
    rintro ⟨h3, -⟩
    omega
  · rw [if_neg h, decide_eq_true_iff]
    have h6 : (mkRat 6 10 : ℚ) = 0.6 := by norm_num [Rat.mkRat_eq_div]
    have hf : (mkRat (c.totalFailures : Int) c.requests : ℚ) =
        (c.totalFailures : ℚ) / (c.requests : ℚ) := by
      rw [Rat.mkRat_eq_div]
      push_cast
      ring
    rw [h6, hf]
    constructor
    · intro hge
      exact ⟨by omega, hge⟩
    · rintro ⟨-, hge⟩
      exact hge

/-- Claim C1: the spec requires that when the backing store is unreachable
during admission the handler fails the whole request with a store-unavailable
error and does not proceed to the provider.  The code diverges: PayHandler only
recognises the in-progress error message, so a SETNX transport error falls
through both idempotency branches and the request proceeds to the provider as
if the transaction were NEW, here even returning a 200 success. -/
theorem claim_C1_code_divergence :
    (PayHandler newAggregator (unreachableStore "dial tcp: connection refused") "POST"
        (some ⟨"TXN-1", 20, "ZAR", "MTN"⟩) []
        (.response (mtnSuccessResponse "MTN-1") none)).result =
      .okPayment { mtnSuccessResponse "MTN-1" with IsIdempotent := true } ∧
    Effect.providerCall "MTN_MOMO" ∈
      (PayHandler newAggregator (unreachableStore "dial tcp: connection refused") "POST"
        (some ⟨"TXN-1", 20, "ZAR", "MTN"⟩) []
        (.response (mtnSuccessResponse "MTN-1") none)).effects := by
  decide

/-- Claim C2, counterexample: with an empty provider registry and a fresh
transaction id the handler reports NOT_FOUND for the fixed name MTN even though
the request selected AIRTEL, and the idempotency store has already been written
(the IN_PROGRESS lease is present), so the outcome is neither keyed by the
request's provider-selection key nor side-effect free. -/
theorem claim_C2_counterexample :
    (PayHandler ⟨[], []⟩ reliableStore "POST" (some ⟨"TXN-2", 20, "ZAR", "AIRTEL"⟩) []
        (.response (mtnSuccessResponse "r") none)).result = .providerNotFound "MTN" ∧
    storeFind
        (PayHandler ⟨[], []⟩ reliableStore "POST" (some ⟨"TXN-2", 20, "ZAR", "AIRTEL"⟩) []
          (.response (mtnSuccessResponse "r") none)).store
        (txnKey "TXN-2") = some (StatusInProgress, InProgressExpirySeconds) := by
  decide

/-- Claim C2, amended: the orchestrator ignores the request's provider-selection
key and always resolves the fixed name MTN; when that name is unregistered the
outcome is NOT_FOUND naming MTN, but the idempotency admission has already run,
so a fresh transaction id has already been written IN_PROGRESS to the store. -/
theorem claim_C2_amended (ps : List (String × Provider)) (bs : List (String × Breaker))
    (s : Store) (req : PaymentRequest) (call : ProviderResult)
    (hp : slookup ps routedProviderName = none)
    (hs : storeFind s (txnKey req.TransactionID) = none) :
    (PayHandler ⟨ps, bs⟩ reliableStore "POST" (some req) s call).result =
      .providerNotFound routedProviderName ∧
    storeFind (PayHandler ⟨ps, bs⟩ reliableStore "POST" (some req) s call).store
      (txnKey req.TransactionID) = some (StatusInProgress, InProgressExpirySeconds) := by
  simp [PayHandler, checkOrSet_fresh s req.TransactionID hs, hp, storeFind]

/-- Claim C2, amended, witness at a concrete input. -/
theorem claim_C2_witness :
    (PayHandler ⟨[], []⟩ reliableStore "POST" (some ⟨"TXN-2w", 20, "ZAR", "AIRTEL"⟩) []
        (.response (mtnSuccessResponse "r") none)).result =
      .providerNotFound routedProviderName ∧
    storeFind
        (PayHandler ⟨[], []⟩ reliableStore "POST" (some ⟨"TXN-2w", 20, "ZAR", "AIRTEL"⟩) []
          (.response (mtnSuccessResponse "r") none)).store
        (txnKey "TXN-2w") = some (StatusInProgress, InProgressExpirySeconds) :=
  claim_C2_amended [] [] [] ⟨"TXN-2w", 20, "ZAR", "AIRTEL"⟩
    (.response (mtnSuccessResponse "r") none) (by decide) (by decide)

/-- Claim C3, counterexample: a provider call that returns the FAILED response
together with a nil error (providers/mtn.go, simulated 500 branch) is recorded
by the breaker as a success, not a failure: from a fresh CLOSED breaker the
window afterwards counts one success and zero failures. -/
theorem claim_C3_counterexample :
    mtnFailedResponse.Status = "FAILED" ∧
    (Execute initialBreaker (.response mtnFailedResponse none)).2.1 =
      ⟨.closed, ⟨1, 1, 0⟩⟩ := by
  decide

/-- Claim C3, amended: the breaker classifies a call through IsSuccessful, which
consults only the returned error: a call whose error is nil is recorded as a
success and a call whose error is non-nil as a failure, regardless of the
Status field of the returned PaymentResponse (so a FAILED response with a nil
error counts as a breaker success; the Airtel and later MTN providers
compensate by returning a non-nil error alongside the FAILED response). -/
theorem claim_C3_amended (c : Counts) (res : PaymentResponse) (e : Option String) :
    (Execute ⟨.closed, c⟩ (.response res e)).2.1.counts.totalFailures =
      (if e = none then c.totalFailures else c.totalFailures + 1) ∧
    (Execute ⟨.closed, c⟩ (.response res e)).2.1.counts.totalSuccesses =
      (if e = none then c.totalSuccesses + 1 else c.totalSuccesses) := by
  cases e <;>
    simp [Execute, afterCall, countsAfter, IsSuccessful, callError,
      Counts.onSuccess, Counts.onFailure]

/-- Claim C4: admit classifies every transaction id as exactly one of the three
outcomes, by the state of its key: a stored COMPLETED value yields
DUPLICATE_COMPLETED (duplicate flag, nil error) without mutating the store and
the handler maps it to the conflict outcome; a key present with another value
makes the set-if-absent fail, yielding DUPLICATE_IN_PROGRESS (the in-progress
error), mapped to the too-early outcome; an absent key makes the set-if-absent
succeed, yielding NEW with the lease written, and the request proceeds to the
provider. -/
theorem claim_C4 (s : Store) (tid : String) :
    ((∃ t, storeFind s (txnKey tid) = some (StatusCompleted, t)) →
      CheckOrSetInProgress reliableStore s tid = ⟨true, none, s, []⟩ ∧
      ∀ (amount : ℚ) (cur pk : String) (call : ProviderResult),
        (PayHandler newAggregator reliableStore "POST" (some ⟨tid, amount, cur, pk⟩)
          s call).result = .conflict) ∧
    ((∃ v t, storeFind s (txnKey tid) = some (v, t) ∧ v ≠ StatusCompleted) →
      CheckOrSetInProgress reliableStore s tid =
        ⟨true, some "transaction already in progress", s,
          [.setNXCall (txnKey tid) StatusInProgress false]⟩ ∧
      ∀ (amount : ℚ) (cur pk : String) (call : ProviderResult),
        (PayHandler newAggregator reliableStore "POST" (some ⟨tid, amount, cur, pk⟩)
          s call).result = .tooEarly) ∧
    (storeFind s (txnKey tid) = none →
      CheckOrSetInProgress reliableStore s tid =
        ⟨false, none, (txnKey tid, StatusInProgress, InProgressExpirySeconds) :: s,
          [.setNXCall (txnKey tid) StatusInProgress true]⟩ ∧
      ∀ (amount : ℚ) (cur pk : String) (call : ProviderResult),
        Effect.providerCall MTNProvider.name ∈
          (PayHandler newAggregator reliableStore "POST" (some ⟨tid, amount, cur, pk⟩)
            s call).effects) := by
  refine ⟨?_, ?_, ?_⟩
  · rintro ⟨t, h⟩
    refine ⟨checkOrSet_completed s tid t h, ?_⟩
    intro amount cur pk call
    simp [PayHandler, checkOrSet_completed s tid t h]
  · rintro ⟨v, t, h, hv⟩
    refine ⟨checkOrSet_present s tid v t h hv, ?_⟩
    intro amount cur pk call
    simp [PayHandler, checkOrSet_present s tid v t h hv]
  · intro h
    refine ⟨checkOrSet_fresh s tid h, ?_⟩
    intro amount cur pk call
    rcases call with e | ⟨res, e⟩
    · simp [PayHandler, checkOrSet_fresh s tid h, Execute, newAggregator, mkAggregator,
        initialBreaker, slookup, routedProviderName, MTNProvider]
    · rcases e with - | m
      · by_cases hs : res.Status = "SUCCESS" <;>
          simp [PayHandler, checkOrSet_fresh s tid h, Execute, newAggregator, mkAggregator,
            initialBreaker, slookup, routedProviderName, MTNProvider, IsSuccessful,
            callError, hs, setCompleted_reliable]
      · simp [PayHandler, checkOrSet_fresh s tid h, Execute, newAggregator, mkAggregator,
          initialBreaker, slookup, routedProviderName, MTNProvider, IsSuccessful, callError]

/-- Claim C4, witness: the three branches at concrete stores. -/
theorem claim_C4_witness :
    (PayHandler newAggregator reliableStore "POST" (some ⟨"T4a", 20, "ZAR", "MTN"⟩)
        [(txnKey "T4a", StatusCompleted, 3600)]
        (.response (mtnSuccessResponse "r") none)).result = .conflict ∧
    (PayHandler newAggregator reliableStore "POST" (some ⟨"T4b", 20, "ZAR", "MTN"⟩)
        [(txnKey "T4b", StatusInProgress, 5)]
        (.response (mtnSuccessResponse "r") none)).result = .tooEarly ∧
    Effect.providerCall MTNProvider.name ∈
      (PayHandler newAggregator reliableStore "POST" (some ⟨"T4c", 20, "ZAR", "MTN"⟩) []
        (.response (mtnSuccessResponse "r") none)).effects := by
  refine ⟨?_, ?_, ?_⟩
  · exact ((claim_C4 [(txnKey "T4a", StatusCompleted, 3600)] "T4a").1
      ⟨3600, by decide⟩).2 20 "ZAR" "MTN" (.response (mtnSuccessResponse "r") none)
  · exact ((claim_C4 [(txnKey "T4b", StatusInProgress, 5)] "T4b").2.1
      ⟨StatusInProgress, 5, by decide, by decide⟩).2 20 "ZAR" "MTN"
      (.response (mtnSuccessResponse "r") none)
  · exact ((claim_C4 [] "T4c").2.2 (by decide)).2 20 "ZAR" "MTN"
      (.response (mtnSuccessResponse "r") none)

/-- Claim C5: from CLOSED the breaker transitions to OPEN after a call exactly
when the updated window holds at least 3 requests and its failure ratio is at
least 0.6; with fewer than 3 requests it never trips and below the ratio it
stays CLOSED.  The sequence fail, fail, success trips; fail, success, success
does not.  The window bookkeeping around the repository's ReadyToTrip callback
is modelled from the spec, gobreaker being an external dependency. -/
theorem claim_C5 :
    (∀ (c : Counts) (success : Bool),
      (afterCall ⟨.closed, c⟩ success).state = .opened ↔
        3 ≤ (countsAfter c success).requests ∧
          ((countsAfter c success).totalFailures : ℚ) /
              ((countsAfter c success).requests : ℚ) ≥ 0.6) ∧
    (runCalls initialBreaker [false, false, true]).state = .opened ∧
    (runCalls initialBreaker [false, true, true]).state = .closed := by
  refine ⟨?_, by decide, by decide⟩
  intro c success
  have hstate : (afterCall ⟨.closed, c⟩ success).state =
      (if ReadyToTrip (countsAfter c success) then BreakerState.opened else .closed) := rfl
  rw [hstate, ← readyToTrip_true_iff]
  cases hr : ReadyToTrip (countsAfter c success) <;> simp [hr]

/-- Claim C6: when the resolved provider's breaker is OPEN, the handler
short-circuits with the service-unavailable outcome whose message names the
provider, the provider is not invoked, idempotency completion is not called,
and the freshly written IN_PROGRESS lease is left in place.  The breaker's
refuse-while-open admission is modelled from the spec. -/
theorem claim_C6 (s : Store) (tid : String) (amount : ℚ) (cur pk : String)
    (c : Counts) (call : ProviderResult)
    (h : storeFind s (txnKey tid) = none) :
    (PayHandler (mkAggregator ⟨.opened, c⟩) reliableStore "POST"
        (some ⟨tid, amount, cur, pk⟩) s call).result =
      .circuitOpen ("Provider " ++ MTNProvider.name ++
        " is currently experiencing high failure rates and has been temporarily taken offline.") ∧
    (∀ n, Effect.providerCall n ∉
      (PayHandler (mkAggregator ⟨.opened, c⟩) reliableStore "POST"
        (some ⟨tid, amount, cur, pk⟩) s call).effects) ∧
    (∀ k v t, Effect.setCall k v t ∉
      (PayHandler (mkAggregator ⟨.opened, c⟩) reliableStore "POST"
        (some ⟨tid, amount, cur, pk⟩) s call).effects) ∧
    storeFind
        (PayHandler (mkAggregator ⟨.opened, c⟩) reliableStore "POST"
          (some ⟨tid, amount, cur, pk⟩) s call).store (txnKey tid) =
      some (StatusInProgress, InProgressExpirySeconds) ∧
    slookup
        (PayHandler (mkAggregator ⟨.opened, c⟩) reliableStore "POST"
          (some ⟨tid, amount, cur, pk⟩) s call).breakers routedProviderName =
      some ⟨.opened, c⟩ := by
  simp [PayHandler, checkOrSet_fresh s tid h, Execute, mkAggregator, slookup,
    supdate, routedProviderName, MTNProvider, storeFind]

/-- Claim C6, witness at a concrete input. -/
theorem claim_C6_witness :
    (PayHandler (mkAggregator ⟨.opened, Counts.zero⟩) reliableStore "POST"
        (some ⟨"T6", 20, "ZAR", "MTN"⟩) [] (.response mtnFailedResponse none)).result =
      .circuitOpen ("Provider " ++ MTNProvider.name ++
        " is currently experiencing high failure rates and has been temporarily taken offline.") :=
  (claim_C6 [] "T6" 20 "ZAR" "MTN" Counts.zero (.response mtnFailedResponse none)
    (by decide)).1

/-- Claim C7: the provider call runs under the fixed 1 s deadline constant; when
it ends in a context error (deadline expiry or upstream cancellation) the
handler surfaces the timeout as the processing-error outcome carrying the cause
text, IsSuccessful classifies the call as non-successful, and the breaker
registry afterwards holds the breaker with one more failure recorded in its
window; idempotency completion is not invoked. -/
theorem claim_C7 (s : Store) (tid : String) (amount : ℚ) (cur pk : String)
    (c : Counts) (em : String)
    (h : storeFind s (txnKey tid) = none) :
    providerCallTimeoutSeconds = 1 ∧
    (PayHandler (mkAggregator ⟨.closed, c⟩) reliableStore "POST"
        (some ⟨tid, amount, cur, pk⟩) s (.ctxDone em)).result =
      .processingError ("Processing error: " ++ em) ∧
    IsSuccessful (callError (.ctxDone em)) = false ∧
    slookup
        (PayHandler (mkAggregator ⟨.closed, c⟩) reliableStore "POST"
          (some ⟨tid, amount, cur, pk⟩) s (.ctxDone em)).breakers routedProviderName =
      some (afterCall ⟨.closed, c⟩ false) ∧
    (afterCall ⟨.closed, c⟩ false).counts.totalFailures = c.totalFailures + 1 ∧
    (∀ k v t, Effect.setCall k v t ∉
      (PayHandler (mkAggregator ⟨.closed, c⟩) reliableStore "POST"
        (some ⟨tid, amount, cur, pk⟩) s (.ctxDone em)).effects) := by
  refine ⟨rfl, ?_, rfl, ?_, ?_, ?_⟩
  · simp [PayHandler, checkOrSet_fresh s tid h, Execute, IsSuccessful, callError,
      mkAggregator, slookup, routedProviderName]
  · simp [PayHandler, checkOrSet_fresh s tid h, Execute, IsSuccessful, callError,
      mkAggregator, slookup, supdate, routedProviderName]
  · simp [afterCall, countsAfter, Counts.onFailure]
  · simp [PayHandler, checkOrSet_fresh s tid h, Execute, IsSuccessful, callError,
      mkAggregator, slookup, supdate, routedProviderName]

/-- Claim C7, witness at a concrete input. -/
theorem claim_C7_witness :
    providerCallTimeoutSeconds = 1 ∧
    (PayHandler (mkAggregator ⟨.closed, Counts.zero⟩) reliableStore "POST"
        (some ⟨"T7", 20, "ZAR", "MTN"⟩) [] (.ctxDone "context deadline exceeded")).result =
      .processingError ("Processing error: " ++ "context deadline exceeded") :=
  ⟨(claim_C7 [] "T7" 20 "ZAR" "MTN" Counts.zero "context deadline exceeded" (by decide)).1,
   (claim_C7 [] "T7" 20 "ZAR" "MTN" Counts.zero "context deadline exceeded" (by decide)).2.1⟩

/-- Claim C8: over the possible outcomes of the MTN provider, idempotency
completion (the unconditional SET of COMPLETED under the 24 h TTL) is invoked
if and only if the provider call returned a SUCCESS response; on such success
the key afterwards holds COMPLETED with the 24 h TTL and the returned payload
is the success response marked as an idempotent replay target.  On failure or
timeout no completion write happens, leaving the IN_PROGRESS lease in place. -/
theorem claim_C8 (s : Store) (tid : String) (amount : ℚ) (cur pk : String)
    (c : Counts) (call : ProviderResult)
    (h : storeFind s (txnKey tid) = none) (hm : mtnPossibleOutcome call) :
    ((∃ k v t, Effect.setCall k v t ∈
        (PayHandler (mkAggregator ⟨.closed, c⟩) reliableStore "POST"
          (some ⟨tid, amount, cur, pk⟩) s call).effects) ↔
      ∃ ref, call = .response (mtnSuccessResponse ref) none) ∧
    (∀ ref, call = .response (mtnSuccessResponse ref) none →
      Effect.setCall (txnKey tid) StatusCompleted CompletedExpirySeconds ∈
        (PayHandler (mkAggregator ⟨.closed, c⟩) reliableStore "POST"
          (some ⟨tid, amount, cur, pk⟩) s call).effects ∧
      storeFind
          (PayHandler (mkAggregator ⟨.closed, c⟩) reliableStore "POST"
            (some ⟨tid, amount, cur, pk⟩) s call).store (txnKey tid) =
        some (StatusCompleted, CompletedExpirySeconds) ∧
      (PayHandler (mkAggregator ⟨.closed, c⟩) reliableStore "POST"
          (some ⟨tid, amount, cur, pk⟩) s call).result =
        .okPayment { mtnSuccessResponse ref with IsIdempotent := true }) := by
  rcases hm with ⟨e, rfl⟩ | rfl | ⟨ref, rfl⟩
  · constructor
    · simp [PayHandler, checkOrSet_fresh s tid h, Execute, IsSuccessful, callError,
        mkAggregator, slookup, routedProviderName]
    · intro ref heq
      exact absurd heq (by simp)
  · constructor
    · constructor
      · intro hex
        exact absurd hex (by
          simp [PayHandler, checkOrSet_fresh s tid h, Execute, IsSuccessful, callError,
            mkAggregator, slookup, routedProviderName, mtnFailedResponse])
      · rintro ⟨ref, heq⟩
        exact absurd heq (by simp [mtnFailedResponse, mtnSuccessResponse])
    · intro ref heq
      exact absurd heq (by simp [mtnFailedResponse, mtnSuccessResponse])
  · constructor
    · constructor
      · intro _
        exact ⟨ref, rfl⟩
      · intro _
        refine ⟨txnKey tid, StatusCompleted, CompletedExpirySeconds, ?_⟩
        simp [PayHandler, checkOrSet_fresh s tid h, Execute, IsSuccessful, callError,
          mkAggregator, slookup, routedProviderName, mtnSuccessResponse,
          setCompleted_reliable]
    · intro ref' heq
      have hr : ref = ref' := by
        simpa [mtnSuccessResponse] using heq
      subst hr
      refine ⟨?_, ?_, ?_⟩ <;>
        simp [PayHandler, checkOrSet_fresh s tid h, Execute, IsSuccessful, callError,
          mkAggregator, slookup, supdate, routedProviderName, mtnSuccessResponse,
          setCompleted_reliable, storeFind]

/-- Claim C8, witness at a concrete input. -/
theorem claim_C8_witness :
    Effect.setCall (txnKey "T8") StatusCompleted CompletedExpirySeconds ∈
      (PayHandler (mkAggregator ⟨.closed, Counts.zero⟩) reliableStore "POST"
        (some ⟨"T8", 20, "ZAR", "MTN"⟩) []
        (.response (mtnSuccessResponse "MTN-8") none)).effects :=
  ((claim_C8 [] "T8" 20 "ZAR" "MTN" Counts.zero
      (.response (mtnSuccessResponse "MTN-8") none) (by decide)
      (Or.inr (Or.inr ⟨"MTN-8", rfl⟩))).2 "MTN-8" rfl).1

/-- Claim C10: in the aggregator built by newAggregator every key registered in
the provider map also has a breaker registered, and consequently the handler's
missing-breaker branch (which would call Execute on a nil breaker) is
unreachable: no run of PayHandler on the built aggregator produces it. -/
theorem claim_C10 :
    (∀ k p, slookup newAggregator.Providers k = some p →
      ∃ b, slookup newAggregator.Breakers k = some b) ∧
    (∀ (sb : StoreBehavior) (method : String) (body : Option PaymentRequest)
        (s : Store) (call : ProviderResult),
      (PayHandler newAggregator sb method body s call).result ≠ .nilBreakerCrash) := by
  constructor
  · intro k p hp
    by_cases hk : "MTN" = k
    · exact ⟨initialBreaker, by simp [newAggregator, mkAggregator, slookup, hk]⟩
    · simp [newAggregator, mkAggregator, slookup, hk] at hp
  · intro sb method body s call
    simp only [PayHandler]
    split
    · simp
    · split
      · simp
      · rename_i req
        split
        · simp
        · split
          · simp
          · split
            · rename_i hnone
              simp [newAggregator, mkAggregator, slookup, routedProviderName] at hnone
            · split
              · rename_i hnone
                simp [newAggregator, mkAggregator, slookup, routedProviderName] at hnone
              · split
                · simp
                · simp
                · split <;> simp

/-- Claim C10, witness: the MTN provider key has a registered breaker. -/
theorem claim_C10_witness :
    ∃ b, slookup newAggregator.Breakers "MTN" = some b :=
  (claim_C10).1 "MTN" MTNProvider (by decide)

/-- Lookup of the key just prepended. -/
theorem storeFind_cons_self (s : Store) (key v : String) (t : Nat) :
    storeFind ((key, v, t) :: s) key = some (v, t) := by
  simp [storeFind]

/-- GET step on an absent key: proceed to the SET NX. -/
theorem threadStep_get_none (s : Store) (key : String)
    (hf : storeFind s key = none) :
    threadStep s key .beforeGet = (s, .beforeSetNX) := by
  simp [threadStep, hf]

/-- GET step on a COMPLETED key: finish with DUPLICATE_COMPLETED. -/
theorem threadStep_get_completed (s : Store) (key : String) (t : Nat)
    (hf : storeFind s key = some (StatusCompleted, t)) :
    threadStep s key .beforeGet = (s, .finished .dupCompleted) := by
  simp [threadStep, hf]

/-- GET step on a key holding another value: proceed to the SET NX. -/
theorem threadStep_get_other (s : Store) (key v : String) (t : Nat)
    (hf : storeFind s key = some (v, t)) (hv : v ≠ StatusCompleted) :
    threadStep s key .beforeGet = (s, .beforeSetNX) := by
  simp [threadStep, hf, hv]

/-- SET NX step on an absent key: the lease is written, the call is NEW. -/
theorem threadStep_setnx_none (s : Store) (key : String)
    (hf : storeFind s key = none) :
    threadStep s key .beforeSetNX =
      ((key, StatusInProgress, InProgressExpirySeconds) :: s, .finished .newTxn) := by
  simp [threadStep, storeSetNX, hf]

/-- SET NX step on a present key: the call is DUPLICATE_IN_PROGRESS. -/
theorem threadStep_setnx_some (s : Store) (key : String) (vt : String × Nat)
    (hf : storeFind s key = some vt) :
    threadStep s key .beforeSetNX = (s, .finished .dupInProgress) := by
  simp [threadStep, storeSetNX, hf]

/-- A finished call does not step. -/
theorem threadStep_finished (s : Store) (key : String) (r : AdmitClass) :
    threadStep s key (.finished r) = (s, .finished r) := rfl

/-- One scheduler step preserves the never-two-NEW invariant. -/
theorem noDoubleNew_step (sys : Sys) (b : Bool) (h : NoDoubleNew sys) :
    NoDoubleNew (sysStep sys b) := by
  obtain ⟨st, key, t0, t1⟩ := sys
  unfold NoDoubleNew at h ⊢
  obtain ⟨h0, h1, hb⟩ := h
  simp only at h0 h1 hb
  cases b
  · -- thread t1 steps
    cases t1 with
    | beforeGet =>
        simp only [sysStep]
        cases hf : storeFind st key with
        | none =>
            rw [threadStep_get_none st key hf]
            dsimp
            exact ⟨fun hh => h0 hh, fun hh => absurd hh (by decide),
              fun hh => absurd hh.2 (by decide)⟩
        | some vt =>
            obtain ⟨v, t⟩ := vt
            rcases eq_or_ne v StatusCompleted with hv | hv
            · subst hv
              rw [threadStep_get_completed st key t hf]
              dsimp
              exact ⟨fun hh => h0 hh, fun hh => absurd hh (by decide),
                fun hh => absurd hh.2 (by decide)⟩
            · rw [threadStep_get_other st key v t hf hv]
              dsimp
              exact ⟨fun hh => h0 hh, fun hh => absurd hh (by decide),
                fun hh => absurd hh.2 (by decide)⟩
    | beforeSetNX =>
        simp only [sysStep]
        cases hf : storeFind st key with
        | none =>
            rw [threadStep_setnx_none st key hf]
            dsimp
            refine ⟨?_, ?_, ?_⟩
            · intro hh
              rw [storeFind_cons_self]
              rfl
            · intro hh
              rw [storeFind_cons_self]
              rfl
            · rintro ⟨hh0, -⟩
              have := h0 hh0
              rw [hf] at this
              cases this
        | some vt =>
            rw [threadStep_setnx_some st key vt hf]
            dsimp
            exact ⟨fun hh => h0 hh, fun hh => absurd hh (by decide),
              fun hh => absurd hh.2 (by decide)⟩
    | finished r =>
        simp only [sysStep]
        rw [threadStep_finished]
        dsimp
        exact ⟨h0, h1, hb⟩
  · -- thread t0 steps
    cases t0 with
    | beforeGet =>
        simp only [sysStep]
        cases hf : storeFind st key with
        | none =>
            rw [threadStep_get_none st key hf]
            dsimp
            exact ⟨fun hh => absurd hh (by decide), fun hh => h1 hh,
              fun hh => absurd hh.1 (by decide)⟩
        | some vt =>
            obtain ⟨v, t⟩ := vt
            rcases eq_or_ne v StatusCompleted with hv | hv
            · subst hv
              rw [threadStep_get_completed st key t hf]
              dsimp
              exact ⟨fun hh => absurd hh (by decide), fun hh => h1 hh,
                fun hh => absurd hh.1 (by decide)⟩
            · rw [threadStep_get_other st key v t hf hv]
              dsimp
              exact ⟨fun hh => absurd hh (by decide), fun hh => h1 hh,
                fun hh => absurd hh.1 (by decide)⟩
    | beforeSetNX =>
        simp only [sysStep]
        cases hf : storeFind st key with
        | none =>
            rw [threadStep_setnx_none st key hf]
            dsimp
            refine ⟨?_, ?_, ?_⟩
            · intro hh
              rw [storeFind_cons_self]
              rfl
            · intro hh
              rw [storeFind_cons_self]
              rfl
            · rintro ⟨-, hh1⟩
              have := h1 hh1
              rw [hf] at this
              cases this
        | some vt =>
            rw [threadStep_setnx_some st key vt hf]
            dsimp
            exact ⟨fun hh => absurd hh (by decide), fun hh => h1 hh,
              fun hh => absurd hh.1 (by decide)⟩
    | finished r =>
        simp only [sysStep]
        rw [threadStep_finished]
        dsimp
        exact ⟨h0, h1, hb⟩

/-- One scheduler step preserves the fresh-key invariant. -/
theorem freshInv_step (sys : Sys) (b : Bool) (h : FreshInv sys) :
    FreshInv (sysStep sys b) := by
  obtain ⟨st, key, t0, t1⟩ := sys
  unfold FreshInv Unfinished at h ⊢
  obtain ⟨hn, hs, hc0, hc1⟩ := h
  simp only at hn hs hc0 hc1
  cases b
  · -- thread t1 steps
    cases t1 with
    | beforeGet =>
        simp only [sysStep]
        cases hf : storeFind st key with
        | none =>
            rw [threadStep_get_none st key hf]
            dsimp
            obtain ⟨hu0, -⟩ := hn hf
            refine ⟨fun _ => ⟨hu0, Or.inr rfl⟩, ?_, hc0, by decide⟩
            intro v t hsome
            rw [hf] at hsome
            cases hsome
        | some vt =>
            obtain ⟨v, t⟩ := vt
            obtain ⟨hv, -⟩ := hs v t hf
            have hvne : v ≠ StatusCompleted := by
              rw [hv]
              decide
            rw [threadStep_get_other st key v t hf hvne]
            dsimp
            refine ⟨?_, ?_, hc0, by decide⟩
            · intro hnone
              rw [hnone] at hf
              cases hf
            · intro v' t' hsome
              obtain ⟨hv', hd'⟩ := hs v' t' hsome
              refine ⟨hv', ?_⟩
              rcases hd' with hh | hh
              · exact Or.inl hh
              · exact absurd hh (by decide)
    | beforeSetNX =>
        simp only [sysStep]
        cases hf : storeFind st key with
        | none =>
            rw [threadStep_setnx_none st key hf]
            dsimp
            refine ⟨?_, ?_, hc0, by decide⟩
            · intro hnone
              rw [storeFind_cons_self] at hnone
              cases hnone
            · intro v t hsome
              rw [storeFind_cons_self] at hsome
              injection hsome with hvt
              injection hvt with hv ht
              exact ⟨hv.symm, Or.inr rfl⟩
        | some vt =>
            rw [threadStep_setnx_some st key vt hf]
            dsimp
            refine ⟨?_, ?_, hc0, by decide⟩
            · intro hnone
              rw [hnone] at hf
              cases hf
            · intro v' t' hsome
              obtain ⟨hv', hd'⟩ := hs v' t' hsome
              refine ⟨hv', ?_⟩
              rcases hd' with hh | hh
              · exact Or.inl hh
              · exact absurd hh (by decide)
    | finished r =>
        simp only [sysStep]
        rw [threadStep_finished]
        dsimp
        exact ⟨hn, hs, hc0, hc1⟩
  · -- thread t0 steps
    cases t0 with
    | beforeGet =>
        simp only [sysStep]
        cases hf : storeFind st key with
        | none =>
            rw [threadStep_get_none st key hf]
            dsimp
            obtain ⟨-, hu1⟩ := hn hf
            refine ⟨fun _ => ⟨Or.inr rfl, hu1⟩, ?_, by decide, hc1⟩
            intro v t hsome
            rw [hf] at hsome
            cases hsome
        | some vt =>
            obtain ⟨v, t⟩ := vt
            obtain ⟨hv, -⟩ := hs v t hf
            have hvne : v ≠ StatusCompleted := by
              rw [hv]
              decide
            rw [threadStep_get_other st key v t hf hvne]
            dsimp
            refine ⟨?_, ?_, by decide, hc1⟩
            · intro hnone
              rw [hnone] at hf
              cases hf
            · intro v' t' hsome
              obtain ⟨hv', hd'⟩ := hs v' t' hsome
              refine ⟨hv', ?_⟩
              rcases hd' with hh | hh
              · exact absurd hh (by decide)
              · exact Or.inr hh
    | beforeSetNX =>
        simp only [sysStep]
        cases hf : storeFind st key with
        | none =>
            rw [threadStep_setnx_none st key hf]
            dsimp
            refine ⟨?_, ?_, by decide, hc1⟩
            · intro hnone
              rw [storeFind_cons_self] at hnone
              cases hnone
            · intro v t hsome
              rw [storeFind_cons_self] at hsome
              injection hsome with hvt
              injection hvt with hv ht
              exact ⟨hv.symm, Or.inl rfl⟩
        | some vt =>
            rw [threadStep_setnx_some st key vt hf]
            dsimp
            refine ⟨?_, ?_, by decide, hc1⟩
            · intro hnone
              rw [hnone] at hf
              cases hf
            · intro v' t' hsome
              obtain ⟨hv', hd'⟩ := hs v' t' hsome
              refine ⟨hv', ?_⟩
              rcases hd' with hh | hh
              · exact absurd hh (by decide)
              · exact Or.inr hh
    | finished r =>
        simp only [sysStep]
        rw [threadStep_finished]
        dsimp
        exact ⟨hn, hs, hc0, hc1⟩

/-- An invariant preserved by every scheduler step is preserved by every run. -/
theorem runSched_preserve {P : Sys → Prop}
    (hstep : ∀ sys b, P sys → P (sysStep sys b)) :
    ∀ (sched : List Bool) (sys : Sys), P sys → P (runSched sys sched) := by
  intro sched
  induction sched with
  | nil => exact fun sys h => h
  | cons b rest ih => exact fun sys h => ih _ (hstep sys b h)

/-- Claim C9: for any interleaving of two concurrent admit calls on the same
transaction id, the two calls never both come back NEW, the store's atomic
set-if-absent being the only guard; and when the id's key was initially absent
and both calls finish, exactly one is NEW and the other DUPLICATE_IN_PROGRESS. -/
theorem claim_C9 (sched : List Bool) (s0 : Store) (tid : String) :
    ¬((runSched ⟨s0, txnKey tid, .beforeGet, .beforeGet⟩ sched).t0 = .finished .newTxn ∧
      (runSched ⟨s0, txnKey tid, .beforeGet, .beforeGet⟩ sched).t1 = .finished .newTxn) ∧
    (storeFind s0 (txnKey tid) = none →
      ∀ r0 r1,
        (runSched ⟨s0, txnKey tid, .beforeGet, .beforeGet⟩ sched).t0 = .finished r0 →
        (runSched ⟨s0, txnKey tid, .beforeGet, .beforeGet⟩ sched).t1 = .finished r1 →
        (r0 = .newTxn ∧ r1 = .dupInProgress) ∨
          (r0 = .dupInProgress ∧ r1 = .newTxn)) := by
  have hnd : NoDoubleNew (runSched ⟨s0, txnKey tid, .beforeGet, .beforeGet⟩ sched) := by
    refine runSched_preserve noDoubleNew_step sched _ ?_
    unfold NoDoubleNew
    exact ⟨fun hh => by simp at hh, fun hh => by simp at hh, fun hh => by
      obtain ⟨hh, -⟩ := hh
      simp at hh⟩
  refine ⟨hnd.2.2, ?_⟩
  intro hfresh r0 r1 h0 h1
  have hfi : FreshInv (runSched ⟨s0, txnKey tid, .beforeGet, .beforeGet⟩ sched) := by
    refine runSched_preserve freshInv_step sched _ ?_
    unfold FreshInv Unfinished
    refine ⟨fun _ => ⟨Or.inl rfl, Or.inl rfl⟩, ?_, by simp, by simp⟩
    intro v t hsome
    rw [hfresh] at hsome
    cases hsome
  unfold FreshInv at hfi
  obtain ⟨hnone, hsome, hc0, hc1⟩ := hfi
  cases hf : storeFind (runSched ⟨s0, txnKey tid, .beforeGet, .beforeGet⟩ sched).store
      (runSched ⟨s0, txnKey tid, .beforeGet, .beforeGet⟩ sched).key with
  | none =>
      obtain ⟨hu0, -⟩ := hnone hf
      unfold Unfinished at hu0
      rcases hu0 with hh | hh <;> rw [h0] at hh <;> cases hh
  | some vt =>
      obtain ⟨v, t⟩ := vt
      obtain ⟨-, hd⟩ := hsome v t hf
      rcases hd with hnew | hnew
      · left
        have heq := h0.symm.trans hnew
        injection heq with hr0
        refine ⟨hr0, ?_⟩
        have ht1 : (runSched ⟨s0, txnKey tid, .beforeGet, .beforeGet⟩ sched).t1 ≠
            .finished .newTxn := fun hh => hnd.2.2 ⟨hnew, hh⟩
        rw [h1] at ht1 hc1
        cases r1 with
        | newTxn => exact absurd rfl ht1
        | dupInProgress => rfl
        | dupCompleted => exact absurd rfl hc1
      · right
        have heq := h1.symm.trans hnew
        injection heq with hr1
        refine ⟨?_, hr1⟩
        have ht0 : (runSched ⟨s0, txnKey tid, .beforeGet, .beforeGet⟩ sched).t0 ≠
            .finished .newTxn := fun hh => hnd.2.2 ⟨hh, hnew⟩
        rw [h0] at ht0 hc0
        cases r0 with
        | newTxn => exact absurd rfl ht0
        | dupInProgress => rfl
        | dupCompleted => exact absurd rfl hc0

/-- Claim C9, witness: the schedule where the first call runs both its store
round trips before the second call starts, from an empty store. -/
theorem claim_C9_witness :
    (runSched ⟨[], txnKey "T9", .beforeGet, .beforeGet⟩ [true, true, false, false]).t0 =
      .finished .newTxn ∧
    (runSched ⟨[], txnKey "T9", .beforeGet, .beforeGet⟩ [true, true, false, false]).t1 =
      .finished .dupInProgress ∧
    ((AdmitClass.newTxn = .newTxn ∧ AdmitClass.dupInProgress = .dupInProgress) ∨
      (AdmitClass.newTxn = .dupInProgress ∧ AdmitClass.dupInProgress = .newTxn)) := by
  refine ⟨by decide, by decide, ?_⟩
  exact (claim_C9 [true, true, false, false] [] "T9").2 (by decide) .newTxn .dupInProgress
    (by decide) (by decide)

end PaymentAggregator
